import Mathlib

/-!
Verification of the client-side post state and synchronization engine of the
Danbooru gallery node (src/js/danbooru_gallery/danbooru_gallery.js).

The JavaScript source is shallowly embedded: each embedded definition mirrors
one function or handler of the source, with JavaScript string values of the
form `null`/`undefined`-or-string modelled as `Option String` (where `none`
stands for a missing or null value) and JavaScript truthiness made explicit.
Deep JSON clones are value copies in the pure embedding.
-/

namespace DanbooruGallery

/-- Whitespace character class used by the splits on `/\s+/` in the source
(ASCII whitespace suffices for tag strings). -/
def isWs (c : Char) : Bool := c = ' ' || c = '\t' || c = '\n' || c = '\r'

/-- JavaScript truthiness test for an optional string value:
`null`, `undefined` and the empty string are falsy. -/
def falsy : Option String → Bool
  | none => true
  | some s => s.data.isEmpty

/-- Negation of `falsy`. -/
def truthy (v : Option String) : Bool := !falsy v

/-- Maximal runs of non-whitespace characters, accumulating the current run in
reverse.  This is the combined effect of `str.trim().split(/\s+/).filter(t => t)`
in `compareTagStrings`. -/
def tokenRuns : List Char → List Char → List String
  | [], acc => if acc.isEmpty then [] else [String.mk acc.reverse]
  | c :: cs, acc =>
    if isWs c then
      if acc.isEmpty then tokenRuns cs [] else String.mk acc.reverse :: tokenRuns cs []
    else
      tokenRuns cs (c :: acc)

/-- Tokenization used by `compareTagStrings`:
`str.trim().split(/\s+/).filter(t => t)`. -/
def splitTags (s : String) : List String := tokenRuns s.data []

/-- Lexicographic comparison of character lists by code point, the order
underlying the default JavaScript `Array.prototype.sort()` on strings. -/
def leChars : List Char → List Char → Bool
  | [], _ => true
  | _ :: _, [] => false
  | a :: as, b :: bs =>
    if a = b then leChars as bs
    else decide (a < b)

/-- Lexicographic string comparison by code point. -/
def leStr (a b : String) : Bool := leChars a.data b.data

/-- The canonical sort corresponding to the JavaScript `Array.prototype.sort()`
call in `compareTagStrings`.  Equality of the two sorted arrays only depends on
the token multisets, so this fixed linear order gives the same comparison
result as the code-unit order used by JavaScript. -/
def sortTags (l : List String) : List String :=
  List.insertionSort (fun a b : String => leStr a b = true) l

/-- Embedding of `compareTagStrings` (danbooru_gallery.js lines 40-54):
tag-string comparison that ignores token order. -/
def compareTagStrings (str1 str2 : Option String) : Bool :=
  if falsy str1 && falsy str2 then true
  else if falsy str1 || falsy str2 then false
  else
    let tags1 := sortTags (splitTags (str1.getD ""))
    let tags2 := sortTags (splitTags (str2.getD ""))
    if tags1.length != tags2.length then false
    else tags1 == tags2

/-- A post record: the fields of the remote API objects that the embedded
operations read.  A missing field is `none`. -/
structure Post where
  id : Nat
  tag_string : Option String := none
  tag_string_artist : Option String := none
  tag_string_copyright : Option String := none
  tag_string_character : Option String := none
  tag_string_general : Option String := none
  tag_string_meta : Option String := none
  file_ext : Option String := none
  file_url : Option String := none
  large_file_url : Option String := none
  preview_file_url : Option String := none
  deriving Repr, DecidableEq

/-- The five tag categories iterated by `updateEditedStatus`. -/
inductive TagCategory where
  | artist
  | copyright
  | character
  | general
  | meta
  deriving Repr, DecidableEq

/-- Category field access (`post["tag_string_" + category]`). -/
def Post.cat (p : Post) : TagCategory → Option String
  | .artist => p.tag_string_artist
  | .copyright => p.tag_string_copyright
  | .character => p.tag_string_character
  | .general => p.tag_string_general
  | .meta => p.tag_string_meta

/-- Category field update, used to state permutation invariance. -/
def Post.setCat (p : Post) (c : TagCategory) (v : Option String) : Post :=
  match c with
  | .artist => { p with tag_string_artist := v }
  | .copyright => { p with tag_string_copyright := v }
  | .character => { p with tag_string_character := v }
  | .general => { p with tag_string_general := v }
  | .meta => { p with tag_string_meta := v }

/-- The category list `["artist", "copyright", "character", "general", "meta"]`
of `updateEditedStatus`. -/
def categories : List TagCategory :=
  [.artist, .copyright, .character, .general, .meta]

/-- Embedding of the edited-status computation of `updateEditedStatus`
(danbooru_gallery.js lines 3550-3572): `originalPost` is the original
snapshot cache entry, `editedPost` the working copy; an absent working copy or
absent snapshot means not edited.  Property presence
(`hasOwnProperty("tag_string_" + cat)`) is modelled as `Option.isSome`. -/
def isTrulyEdited (originalPost editedPost : Option Post) : Bool :=
  match editedPost, originalPost with
  | some e, some o =>
    let hasCategoryTags :=
      categories.any (fun c => (o.cat c).isSome || (e.cat c).isSome)
    if hasCategoryTags then
      categories.any (fun c => !compareTagStrings (o.cat c) (e.cat c))
    else
      !compareTagStrings o.tag_string e.tag_string
  | _, _ => false

/-- JavaScript `String.prototype.trim` on a character list. -/
def jsTrimChars (cs : List Char) : List Char :=
  ((cs.dropWhile isWs).reverse.dropWhile isWs).reverse

/-- JavaScript `s.trim()`. -/
def jsTrim (s : String) : String := String.mk (jsTrimChars s.data)

/-- JavaScript `s.split(sep)` for a single-character separator: the empty
string splits to `[""]`, adjacent separators yield empty pieces. -/
def splitOnCharAux (sep : Char) : List Char → List Char → List String
  | [], acc => [String.mk acc.reverse]
  | c :: cs, acc =>
    if c = sep then String.mk acc.reverse :: splitOnCharAux sep cs []
    else splitOnCharAux sep cs (c :: acc)

/-- JavaScript `s.split(sep)` for a one-character separator string. -/
def splitOnChar (sep : Char) (s : String) : List String :=
  splitOnCharAux sep s.data []

/-- The replacement `convertedTag.replace(/\\([()])/g, "$1")` of
`convertTagsToApiFormat`: drop a backslash that directly precedes a
parenthesis. -/
def unescapeParens : List Char → List Char
  | [] => []
  | '\\' :: '(' :: cs => '(' :: unescapeParens cs
  | '\\' :: ')' :: cs => ')' :: unescapeParens cs
  | c :: cs => c :: unescapeParens cs

/-- The replacement `convertedTag.replace(/\s+/g, "_")` of
`convertTagsToApiFormat`: each maximal whitespace run becomes one
underscore. -/
def wsRunsToUnderscoreAux : Bool → List Char → List Char
  | _, [] => []
  | prevWs, c :: cs =>
    if isWs c then
      if prevWs then wsRunsToUnderscoreAux true cs
      else '_' :: wsRunsToUnderscoreAux true cs
    else c :: wsRunsToUnderscoreAux false cs

/-- Entry point of the whitespace-run replacement. -/
def wsRunsToUnderscore (cs : List Char) : List Char :=
  wsRunsToUnderscoreAux false cs

/-- Conversion of one comma piece inside `convertTagsToApiFormat`
(danbooru_gallery.js lines 2015-2027). -/
def convertOneTag (tag : String) : String :=
  let convertedTag := jsTrim tag
  let convertedTag := String.mk (unescapeParens convertedTag.data)
  if convertedTag.data.contains ':' then convertedTag
  else String.mk (wsRunsToUnderscore convertedTag.data)

/-- Embedding of `convertTagsToApiFormat` (danbooru_gallery.js lines
2009-2029): split the search text on commas, drop blank pieces, convert each
piece, join with single spaces.  Every comma-separated tag is kept. -/
def convertTagsToApiFormat (tagsString : String) : String :=
  if tagsString.data.isEmpty then ""
  else
    let tags := (splitOnChar ',' tagsString).filter (fun tag => jsTrim tag != "")
    String.intercalate " " (tags.map convertOneTag)

/-- Filter state as persisted by the filter dialog: either a time range or a
start page, mutually exclusive (danbooru_gallery.js line 188).  The time
bounds are held as the raw input strings of the datetime-local controls. -/
structure FilterState where
  startTime : Option String := none
  endTime : Option String := none
  startPage : Option Int := none
  deriving Repr, DecidableEq

/-- The day part rendered into the `date:` search term:
`new Date(x).toISOString().split("T")[0]`.  For the fixed-format
datetime-local values produced by the dialog this is the text before the
`T` separator (a UTC environment is assumed; the exact rendering is not used
by any claim). -/
def isoDay (s : String) : String :=
  String.mk (s.data.takeWhile (fun c => c ≠ 'T'))

/-- JavaScript `filterState.startPage || 1`: `null` and `0` are falsy. -/
def pageOrOne : Option Int → Int
  | none => 1
  | some n => if n = 0 then 1 else n

/-- Mutable state of the pagination controller
(danbooru_gallery.js lines 187-188). -/
structure GalleryState where
  isLoading : Bool := false
  posts : List Post := []
  currentPage : Int := 1
  filterState : FilterState := {}
  deriving Repr, DecidableEq

/-- One search request issued to the remote post source (the `URLSearchParams`
of `fetchAndRender`, danbooru_gallery.js lines 2096-2101). -/
structure ApiRequest where
  tags : String
  rating : String
  page : Int
  deriving Repr, DecidableEq

/-- Outcome classification of one `fetchAndRender` call. -/
inductive FetchResult where
  | guarded
  | networkFailed
  | apiError
  | noResults
  | loaded (appended : Nat)
  deriving Repr, DecidableEq

/-- Result of one `fetchAndRender` call: the new controller state, the search
requests issued to the remote source, whether the over-limit tag hint was
shown, and the outcome class. -/
structure FetchOutcome where
  state : GalleryState
  requests : List ApiRequest
  tagHint : Bool
  result : FetchResult
  deriving Repr, DecidableEq

/-- Lower-casing as used by the source (`toLowerCase`). -/
def lowerStr (s : String) : String := String.mk (s.data.map Char.toLower)

/-- The extension extraction `url.match(/\.([^.?#]+)(?:\?|#|$)/)` of
`isValidImageType`: scanning left to right, the first dot followed by a
nonempty run of characters other than `.`, `?`, `#` that is terminated by
`?`, `#` or the end of the string; the run is the captured extension. -/
def extractExtAux : List Char → Option String
  | [] => none
  | '.' :: rest =>
    let seg := rest.takeWhile (fun c => !(c = '.' || c = '?' || c = '#'))
    let after := rest.drop seg.length
    if !seg.isEmpty && (after.isEmpty || after.head? == some '?' || after.head? == some '#') then
      some (String.mk seg)
    else extractExtAux rest
  | _ :: rest => extractExtAux rest

/-- Extension extraction from a URL string. -/
def extractExt (s : String) : Option String := extractExtAux s.data

/-- The allow-list of `isValidImageType` (danbooru_gallery.js line 1935). -/
def allowedImageExtensions : List String :=
  ["jpg", "jpeg", "png", "webp", "bmp", "tiff", "tif"]

/-- Embedding of `isValidImageType` (danbooru_gallery.js lines 1933-1955):
check `file_ext` when truthy, otherwise try to extract an extension from
`file_url`; when neither determines a type, reject by default. -/
def isValidImageType (post : Post) : Bool :=
  if truthy post.file_ext then
    allowedImageExtensions.contains (lowerStr (post.file_ext.getD ""))
  else if truthy post.file_url then
    match extractExt (lowerStr (post.file_url.getD "")) with
    | some fileExt => allowedImageExtensions.contains fileExt
    | none => false
  else
    false

/-- The tag collection of `isPostBlacklisted` (danbooru_gallery.js lines
1963-1970): every truthy tag-string field split on single spaces, in source
order. -/
def postAllTags (post : Post) : List String :=
  (if truthy post.tag_string then splitOnChar ' ' (post.tag_string.getD "") else []) ++
  (if truthy post.tag_string_artist then splitOnChar ' ' (post.tag_string_artist.getD "") else []) ++
  (if truthy post.tag_string_copyright then splitOnChar ' ' (post.tag_string_copyright.getD "") else []) ++
  (if truthy post.tag_string_character then splitOnChar ' ' (post.tag_string_character.getD "") else []) ++
  (if truthy post.tag_string_general then splitOnChar ' ' (post.tag_string_general.getD "") else []) ++
  (if truthy post.tag_string_meta then splitOnChar ' ' (post.tag_string_meta.getD "") else [])

/-- Embedding of `isPostBlacklisted` (danbooru_gallery.js lines 1958-1980):
case-insensitive exact token match of any blacklist entry against any tag. -/
def isPostBlacklisted (blacklist : List String) (post : Post) : Bool :=
  if blacklist.isEmpty then false
  else
    blacklist.any (fun blacklistTag =>
      let normalized := lowerStr (jsTrim blacklistTag)
      normalized != "" && (postAllTags post).any (fun tag => lowerStr tag == normalized))

/-- Embedding of `isPostFiltered` (danbooru_gallery.js lines 1982-1991). -/
def isPostFiltered (blacklist : List String) (post : Post) : Bool :=
  if !isValidImageType post then true
  else isPostBlacklisted blacklist post

/-- The `date:` suffix appended to the tag query when a time filter is active
(danbooru_gallery.js lines 2090-2094). -/
def dateFilterSuffix (fs : FilterState) : String :=
  if truthy fs.startTime || truthy fs.endTime then
    " date:" ++
      (match fs.startTime with
       | some s => if s = "" then "" else isoDay s
       | none => "") ++
    ".." ++
      (match fs.endTime with
       | some s => if s = "" then "" else isoDay s
       | none => "") else ""

/-- The value of the `search[tags]` request parameter built by
`fetchAndRender` from the trimmed search text and the active filter. -/
def requestTagsFor (fs : FilterState) (searchValue : String) : String :=
  jsTrim (convertTagsToApiFormat (jsTrim searchValue) ++ dateFilterSuffix fs)

/-- Embedding of `fetchAndRender` (danbooru_gallery.js lines 2031-2133).
Environment inputs are passed explicitly: `searchValue` is the raw search box
text, `rating` the rating selector value, `blacklist` the active blacklist,
`connected` the result of the network probe, and `response` the parsed reply
of the search request (`none` models a non-list reply).  The returned outcome
records the final state, the issued search requests and whether the
over-limit tag hint was shown. -/
def fetchAndRender (st0 : GalleryState) (reset : Bool) (searchValue : String)
    (rating : String) (blacklist : List String)
    (connected : Bool) (response : Option (List Post)) : FetchOutcome :=
  if st0.isLoading then
    { state := st0, requests := [], tagHint := false, result := .guarded }
  else
    let st1 : GalleryState := { st0 with isLoading := true }
    let st2 : GalleryState :=
      if reset then
        { st1 with currentPage := pageOrOne st1.filterState.startPage, posts := [] }
      else st1
    if !connected then
      { state := { st2 with isLoading := false }, requests := [],
        tagHint := false, result := .networkFailed }
    else
      let searchTrimmed := jsTrim searchValue
      let commaTags := (splitOnChar ',' searchTrimmed).filter (fun tag => jsTrim tag != "")
      let tagHint := commaTags.length > 2
      let req : ApiRequest :=
        { tags := requestTagsFor st2.filterState searchValue,
          rating := rating, page := st2.currentPage }
      match response with
      | none =>
        { state := { st2 with isLoading := false }, requests := [req],
          tagHint := tagHint, result := .apiError }
      | some newPosts =>
        let filteredPosts := newPosts.filter (fun post => !isPostFiltered blacklist post)
        if filteredPosts.isEmpty && reset then
          { state := { st2 with isLoading := false }, requests := [req],
            tagHint := tagHint, result := .noResults }
        else
          let st3 : GalleryState :=
            { st2 with
                currentPage := st2.currentPage + 1,
                posts := st2.posts ++ filteredPosts,
                isLoading := false }
          { state := st3, requests := [req], tagHint := tagHint,
            result := .loaded filteredPosts.length }

/-- Joint state of the post cache and the edit overlay: the visible `posts`
array, the `originalPostCache` snapshot map and the `temporaryTagEdits`
working-copy map, both keyed by post identifier.  Assigning `undefined` to a
map entry in the source makes every subsequent read falsy, so it is modelled
as removal of the entry. -/
structure EditState where
  posts : List Post := []
  originalPostCache : List (Nat × Post) := []
  temporaryTagEdits : List (Nat × Post) := []
  deriving Repr, DecidableEq

/-- The update `posts[posts.findIndex(p => p.id === id)] = v`: replace the
first cache entry with the given identifier. -/
def replaceFirstById : List Post → Nat → Post → List Post
  | [], _, _ => []
  | p :: rest, id, v =>
    if p.id = id then v :: rest else p :: replaceFirstById rest id v

/-- Embedding of the reset-to-original handler (danbooru_gallery.js lines
2506-2527) restricted to its synchronous state effect: when the original
snapshot is cached, the visible cache entry becomes a fresh copy of the
snapshot and the working copy is removed (`temporaryTagEdits[id] = undefined`).
Without a cached snapshot the handler only starts a remote re-fetch and
changes none of these fields. -/
def resetToOriginal (st : EditState) (id : Nat) : EditState :=
  match st.originalPostCache.lookup id with
  | some originalPostData =>
    { st with
        posts := replaceFirstById st.posts id originalPostData,
        temporaryTagEdits := st.temporaryTagEdits.filter (fun kv => kv.1 != id) }
  | none => st

/-- The derived edited status of one post in a given state, as computed by
`updateEditedStatus`. -/
def computeEditedStatus (st : EditState) (id : Nat) : Bool :=
  isTrulyEdited (st.originalPostCache.lookup id) (st.temporaryTagEdits.lookup id)

/-- Embedding of the working-copy creation in `showEditPanel`
(danbooru_gallery.js lines 2211-2215): `if (!temporaryTagEdits[post.id])
temporaryTagEdits[post.id] = JSON.parse(JSON.stringify(post))`. -/
def getOrCreateWorkingCopy (edits : List (Nat × Post)) (post : Post) : List (Nat × Post) :=
  match edits.lookup post.id with
  | some _ => edits
  | none => (post.id, post) :: edits

/-- JavaScript `parseInt(s, 10)`: skip leading whitespace, read an optional
sign and then a maximal run of decimal digits; no digits gives `NaN`,
modelled as `none`. -/
def digitsPrefixVal (cs : List Char) : Option Nat :=
  let ds := cs.takeWhile (fun c => c.isDigit)
  if ds.isEmpty then none
  else some (ds.foldl (fun n c => 10 * n + (c.toNat - '0'.toNat)) 0)

/-- JavaScript `parseInt(s, 10)` returning `none` for `NaN`. -/
def parseIntJs (s : String) : Option Int :=
  match jsTrimChars s.data with
  | '-' :: rest => (digitsPrefixVal rest).map (fun n => -(n : Int))
  | '+' :: rest => (digitsPrefixVal rest).map (fun n => (n : Int))
  | cs => (digitsPrefixVal cs).map (fun n => (n : Int))

/-- Strict lexicographic comparison of character lists by code point. -/
def ltChars : List Char → List Char → Bool
  | [], [] => false
  | [], _ :: _ => true
  | _ :: _, [] => false
  | a :: as, b :: bs => if a = b then ltChars as bs else decide (a < b)

/-- The comparison `new Date(a) > new Date(b)` for the fixed-format values of
the two datetime-local inputs: for this format chronological order agrees
with lexicographic string order. -/
def dateStrGt (a b : String) : Bool := ltChars b.data a.data

/-- The radio selection of the filter dialog: time range or start page. -/
inductive FilterDialogType where
  | time
  | page
  deriving Repr, DecidableEq

/-- Result of one click on the apply button of the filter dialog: the stored
filter state afterwards, the local validation message if any, and whether the
dialog submitted (saved the state and triggered a reload). -/
structure ApplyFilterOutcome where
  filterState : FilterState
  errorMessage : Option String
  submitted : Bool
  deriving Repr, DecidableEq

/-- Embedding of `applyButton.onclick` of the filter dialog
(danbooru_gallery.js lines 1771-1806).  `startTimeInput`, `endTimeInput` and
`startPageInput` are the raw values of the three inputs. -/
def applyFilterDialog (filterState : FilterState) (selectedType : FilterDialogType)
    (startTimeInput endTimeInput startPageInput : String) : ApplyFilterOutcome :=
  match selectedType with
  | .time =>
    if startTimeInput != "" && endTimeInput != "" && dateStrGt startTimeInput endTimeInput then
      { filterState := filterState,
        errorMessage := some "结束时间不能早于开始时间。", submitted := false }
    else
      { filterState :=
          { startTime := if startTimeInput = "" then none else some startTimeInput,
            endTime := if endTimeInput = "" then none else some endTimeInput,
            startPage := none },
        errorMessage := none, submitted := true }
  | .page =>
    let startPage := parseIntJs startPageInput
    if startPageInput != "" && (startPage.isNone || startPage.getD 0 < 1) then
      { filterState := filterState,
        errorMessage := some "起始页码必须是大于0的整数。", submitted := false }
    else
      { filterState := { startTime := none, endTime := none, startPage := startPage },
        errorMessage := none, submitted := true }

/-- The UI settings consulted by `buildPromptForPost`: checked prompt
categories, the prompt-filter blacklist with its enabled flag, and the two
formatting flags. -/
structure PromptSettings where
  selectedCategories : List TagCategory :=
    [.artist, .copyright, .character, .general, .meta]
  filterEnabled : Bool := false
  currentFilterTags : List String := []
  escapeBrackets : Bool := false
  replaceUnderscores : Bool := false
  deriving Repr, DecidableEq

/-- The replacement `replaceAll("(", "\\(").replaceAll(")", "\\)")`. -/
def escapeParensChars : List Char → List Char
  | [] => []
  | c :: cs =>
    if c = '(' then '\\' :: '(' :: escapeParensChars cs
    else if c = ')' then '\\' :: ')' :: escapeParensChars cs
    else c :: escapeParensChars cs

/-- Embedding of `buildPromptForPost` (danbooru_gallery.js lines 2853-2892):
gather the tags of the checked categories from the working copy when one
exists, fall back to the flat tag string when no checked category is truthy,
apply the prompt filter, then the formatting transforms, and join with
a comma and space. -/
def buildPromptForPost (cfg : PromptSettings) (edits : List (Nat × Post))
    (postData : Post) : String :=
  let postToUse := (edits.lookup postData.id).getD postData
  let output_tags :=
    cfg.selectedCategories.foldl
      (fun acc category =>
        if truthy (postToUse.cat category) then
          acc ++ splitOnChar ' ' ((postToUse.cat category).getD "")
        else acc)
      []
  let tagsToProcess :=
    if output_tags.length > 0 then output_tags
    else splitOnChar ' ' (postToUse.tag_string.getD "")
  let tagsToProcess :=
    if cfg.filterEnabled && cfg.currentFilterTags.length > 0 then
      let filterTagsLower := cfg.currentFilterTags.map (fun tag => jsTrim (lowerStr tag))
      tagsToProcess.filter (fun tag => !(filterTagsLower.contains (jsTrim (lowerStr tag))))
    else tagsToProcess
  let processedTags := tagsToProcess.map (fun tag =>
    let t1 :=
      if cfg.replaceUnderscores then
        String.mk (tag.data.map (fun ch => if ch = '_' then ' ' else ch))
      else tag
    if cfg.escapeBrackets then String.mk (escapeParensChars t1.data) else t1)
  String.intercalate ", " processedTags

/-- One element of the `selections` array written by `updateSelectionData`. -/
structure SelectionEntry where
  post_id : Nat
  prompt : String
  image_url : Option String
  deriving Repr, DecidableEq

/-- The three payload shapes the serialization widget can hold: the initial
empty object, the single-selection object written by the edit-panel paths,
and the `selections` array object. -/
inductive SelectionPayload where
  | emptyObj
  | singleSel (prompt : String) (image_url : Option String)
  | multiSel (selections : List SelectionEntry)
  deriving Repr, DecidableEq

/-- Shape discriminator: is the payload the `selections` array object. -/
def payloadIsMulti : SelectionPayload → Bool
  | .multiSel _ => true
  | _ => false

/-- JavaScript `a || b` on two optional string values. -/
def jsOrStr (a b : Option String) : Option String :=
  if truthy a then a else b

/-- Embedding of `updateSelectionData` (danbooru_gallery.js lines 2895-2926):
collect every selected wrapper in grid order, resolve its post data from the
cache or the working copies, and write the `selections` payload to the
serialization widget.  The emitted payload is always the `selections` array
shape, in both selection modes. -/
def updateSelectionData (cfg : PromptSettings) (posts : List Post)
    (edits : List (Nat × Post)) (selectedIds : List Nat) : SelectionPayload :=
  .multiSel (selectedIds.filterMap (fun postId =>
    let postData :=
      match posts.find? (fun p => p.id == postId) with
      | some pd => some pd
      | none => edits.lookup postId
    match postData with
    | some pd =>
      some { post_id := postId,
             prompt := buildPromptForPost cfg edits pd,
             image_url := jsOrStr pd.file_url pd.large_file_url }
    | none => none))

/-- Embedding of the image click handler (danbooru_gallery.js lines
2968-2991) on the selection flags of the grid: the grid is the list of
`(postId, selected)` wrappers in DOM order.  In single-select mode every
other wrapper is deselected first; then the clicked wrapper toggles. -/
def imgOnClick (multiSelect : Bool) (grid : List (Nat × Bool)) (clickedId : Nat) :
    List (Nat × Bool) :=
  grid.map (fun wp =>
    if wp.1 == clickedId then (wp.1, !wp.2)
    else if !multiSelect then (wp.1, false)
    else wp)

/-- The selected post identifiers of a grid, in DOM order
(`querySelectorAll(".danbooru-image-wrapper.selected")`). -/
def selectedIdsOf (grid : List (Nat × Bool)) : List Nat :=
  (grid.filter (fun wp => wp.2)).map (fun wp => wp.1)

/-- State of the tooltip enrichment pipeline: the global token
`currentTooltipId`, whether tooltips are enabled, the target whose content
currently occupies the shared tooltip element together with a flag telling
whether the fetched translations were rendered into it, and the visibility
of the element. -/
structure TooltipState where
  currentTooltipId : Nat := 0
  tooltipEnabled : Bool := true
  ui : Option (Nat × Bool) := none
  visible : Bool := false
  deriving Repr, DecidableEq

/-- Events of the enrichment pipeline: a hover start on a target (with the
flag telling whether a translation fetch is issued, i.e. Chinese mode with a
nonempty tag list), a hover end, and the completion of a fetch that captured
token `token` for target `target`. -/
inductive TooltipEvent where
  | enter (target : Nat) (fetches : Bool)
  | leave
  | complete (token : Nat) (target : Nat)
  deriving Repr, DecidableEq

/-- Step function of the enrichment pipeline, mirroring the `mouseenter`
handler (danbooru_gallery.js lines 3051-3162), the token check on fetch
completion (lines 3125-3128) and the `mouseleave` handler (lines 3164-3176).
On `enter`, the handler returns at once when tooltips are disabled; otherwise
it allocates a fresh token, synchronously replaces the tooltip content with
the details of the new target, and either suspends on the fetch or, when no
fetch is issued, renders immediately.  On `complete`, the response is
rendered only when the captured token is still the global token.  On
`leave`, the global token advances and the tooltip hides. -/
def tooltipStep (s : TooltipState) : TooltipEvent → TooltipState
  | .enter target fetches =>
    if !s.tooltipEnabled then s
    else
      let s1 : TooltipState :=
        { s with currentTooltipId := s.currentTooltipId + 1, ui := some (target, false) }
      if fetches then s1
      else { s1 with ui := some (target, true), visible := true }
  | .leave =>
    { s with currentTooltipId := s.currentTooltipId + 1, visible := false }
  | .complete token target =>
    if token = s.currentTooltipId then
      { s with ui := some (target, true), visible := true }
    else s

/-- Run a sequence of tooltip events. -/
def tooltipRun (s : TooltipState) : List TooltipEvent → TooltipState
  | [] => s
  | e :: es => tooltipRun (tooltipStep s e) es

/-- A tag-string value whose token list is empty: `null`, `undefined`, the
empty string, or a whitespace-only string. -/
def blankTagValue (v : Option String) : Bool :=
  (splitTags (v.getD "")).isEmpty

/-- A concrete post used as a witness input. -/
def samplePost : Post :=
  { id := 1,
    tag_string := some "solo smile",
    tag_string_general := some "solo smile",
    file_ext := some "jpg",
    file_url := some "https://example.test/1.jpg",
    preview_file_url := some "pre" }

/-- The witness post with an edited general category. -/
def samplePostEdited : Post :=
  { samplePost with tag_string_general := some "solo frown" }

/-- A concrete post with no `file_ext` field and a `file_url` with no
extractable extension. -/
def sampleNoTypePost : Post :=
  { id := 7,
    tag_string_general := some "solo",
    file_url := some "http://host/file" }

/-- A concrete edit-overlay state with a cached snapshot and a differing
working copy for post 1. -/
def sampleEditState : EditState :=
  { posts := [samplePostEdited],
    originalPostCache := [(1, samplePost)],
    temporaryTagEdits := [(1, samplePostEdited)] }

/-- A concrete pagination state with a load in flight. -/
def loadingState : GalleryState :=
  { isLoading := true,
    posts := [samplePost],
    currentPage := 3,
    filterState := { startPage := some 2 } }

/-! ## Helper lemmas -/

theorem leChars_total (as bs : List Char) : leChars as bs = true ∨ leChars bs as = true := by
  induction as generalizing bs with
  | nil => left; rfl
  | cons a as ih =>
    cases bs with
    | nil => right; rfl
    | cons b bs =>
      by_cases hab : a = b
      · subst hab
        rcases ih bs with h | h
        · left; simpa [leChars] using h
        · right; simpa [leChars] using h
      · have hba : b ≠ a := fun hh => hab hh.symm
        rcases lt_or_gt_of_ne hab with h | h
        · left; simp [leChars, hab, h]
        · right; simp [leChars, hba, h]

theorem leChars_antisymm (as bs : List Char)
    (h1 : leChars as bs = true) (h2 : leChars bs as = true) : as = bs := by
  induction as generalizing bs with
  | nil =>
    cases bs with
    | nil => rfl
    | cons b bs => simp [leChars] at h2
  | cons a as ih =>
    cases bs with
    | nil => simp [leChars] at h1
    | cons b bs =>
      by_cases hab : a = b
      · subst hab
        simp only [leChars, if_pos rfl] at h1 h2
        rw [ih bs h1 h2]
      · have hba : b ≠ a := fun hh => hab hh.symm
        simp [leChars, hab] at h1
        simp [leChars, hba] at h2
        exact absurd h2 (lt_asymm h1)

theorem leChars_trans (as bs cs : List Char)
    (h1 : leChars as bs = true) (h2 : leChars bs cs = true) : leChars as cs = true := by
  induction as generalizing bs cs with
  | nil => rfl
  | cons a as ih =>
    cases bs with
    | nil => simp [leChars] at h1
    | cons b bs =>
      cases cs with
      | nil => simp [leChars] at h2
      | cons c cs =>
        by_cases hab : a = b
        · subst hab
          simp only [leChars, if_pos rfl] at h1
          by_cases hac : a = c
          · subst hac
            simp only [leChars, if_pos rfl] at h2 ⊢
            exact ih bs cs h1 h2
          · simp only [leChars, if_neg hac] at h2 ⊢
            exact h2
        · simp only [leChars, if_neg hab, decide_eq_true_eq] at h1
          by_cases hbc : b = c
          · subst hbc
            simp [leChars, hab, h1]
          · simp only [leChars, if_neg hbc, decide_eq_true_eq] at h2
            have hac : a < c := lt_trans h1 h2
            simp [leChars, ne_of_lt hac, hac]

theorem leStr_total (a b : String) : leStr a b = true ∨ leStr b a = true :=
  leChars_total a.data b.data

theorem leStr_antisymm (a b : String) (h1 : leStr a b = true) (h2 : leStr b a = true) :
    a = b := by
  cases a with
  | mk da =>
    cases b with
    | mk db => exact congrArg String.mk (leChars_antisymm da db h1 h2)

theorem leStr_trans (a b c : String) (h1 : leStr a b = true) (h2 : leStr b c = true) :
    leStr a c = true :=
  leChars_trans a.data b.data c.data h1 h2

theorem sortTags_perm_eq {l1 l2 : List String} (h : l1.Perm l2) :
    sortTags l1 = sortTags l2 := by
  haveI : IsTotal String (fun a b => leStr a b = true) := ⟨leStr_total⟩
  haveI : IsTrans String (fun a b => leStr a b = true) := ⟨leStr_trans⟩
  haveI : IsAntisymm String (fun a b => leStr a b = true) := ⟨leStr_antisymm⟩
  exact List.eq_of_perm_of_sorted
    ((List.perm_insertionSort _ l1).trans (h.trans (List.perm_insertionSort _ l2).symm))
    (List.sorted_insertionSort _ l1) (List.sorted_insertionSort _ l2)

theorem compareTagStrings_self (v : Option String) : compareTagStrings v v = true := by
  simp only [compareTagStrings]
  cases hf : falsy v <;> simp [hf]

theorem isTrulyEdited_self (p : Post) : isTrulyEdited (some p) (some p) = false := by
  simp [isTrulyEdited, categories, compareTagStrings_self]

theorem isTrulyEdited_no_copy (orig : Option Post) : isTrulyEdited orig none = false := by
  cases orig <;> rfl

theorem lookup_filter_ne_eq_none (l : List (Nat × Post)) (id : Nat) :
    (l.filter (fun kv => kv.1 != id)).lookup id = none := by
  induction l with
  | nil => rfl
  | cons kv rest ih =>
    obtain ⟨k, v⟩ := kv
    by_cases h : k = id
    · subst h
      simpa [List.filter_cons] using ih
    · have hk : (k != id) = true := by simp [h]
      have hne : (id == k) = false := by simp [Ne.symm h]
      simp [List.filter_cons, hk, List.lookup, hne, ih]

theorem splitTags_of_falsy {v : Option String} (h : falsy v = true) :
    splitTags (v.getD "") = [] := by
  cases v with
  | none => rfl
  | some s =>
    simp only [falsy] at h
    simp only [Option.getD_some, splitTags]
    cases hs : s.data with
    | nil => rfl
    | cons c cs => rw [hs] at h; simp [List.isEmpty] at h

theorem falsy_blank {v : Option String} (h : falsy v = true) : blankTagValue v = true := by
  simp [blankTagValue, splitTags_of_falsy h]

theorem splitTags_of_blank {v : Option String} (h : blankTagValue v = true) :
    splitTags (v.getD "") = [] := by
  simpa [blankTagValue, List.isEmpty_iff] using h

theorem splitTags_of_not_blank {v : Option String} (h : blankTagValue v = false) :
    splitTags (v.getD "") ≠ [] := by
  intro hc
  simp [blankTagValue, hc] at h

theorem falsy_of_not_blank {v : Option String} (h : blankTagValue v = false) :
    falsy v = false := by
  cases hf : falsy v
  · rfl
  · rw [falsy_blank hf] at h
    exact absurd h (by simp)

theorem sortTags_eq_nil_iff (l : List String) : sortTags l = [] ↔ l = [] := by
  constructor
  · intro h
    have hp := List.perm_insertionSort (fun a b => leStr a b = true) l
    rw [sortTags] at h
    rw [h] at hp
    exact hp.symm.eq_nil
  · intro h
    rw [h]
    rfl

theorem lengthGuardBeq (l1 l2 : List String) :
    (if l1.length != l2.length then false else l1 == l2) = (l1 == l2) := by
  by_cases h : l1.length = l2.length
  · simp [h]
  · have hb : (l1 == l2) = false := by
      rw [beq_eq_false_iff_ne]
      intro hc
      exact h (by rw [hc])
    simp [h, hb]

theorem compareTagStrings_ofTokens (v1 v2 : Option String)
    (hf1 : falsy v1 = false) (hf2 : falsy v2 = false) :
    compareTagStrings v1 v2 =
      (sortTags (splitTags (v1.getD "")) == sortTags (splitTags (v2.getD ""))) := by
  simp only [compareTagStrings, hf1, hf2, Bool.false_and, Bool.false_or, if_false,
    Bool.false_eq_true, if_neg]
  exact lengthGuardBeq _ _

theorem compareTagStrings_perm_right (a : Option String) (s t : String)
    (hperm : (splitTags t).Perm (splitTags s))
    (hempty : t.data.isEmpty = s.data.isEmpty) :
    compareTagStrings a (some t) = compareTagStrings a (some s) := by
  have hf : falsy (some t) = falsy (some s) := by simp [falsy, hempty]
  have hsort : sortTags (splitTags t) = sortTags (splitTags s) := sortTags_perm_eq hperm
  cases hfa : falsy a with
  | true => cases hfs : falsy (some s) <;>
      simp [compareTagStrings, hfa, hf, hfs]
  | false =>
    cases hfs : falsy (some s) with
    | true => simp [compareTagStrings, hfa, hf, hfs]
    | false =>
      rw [compareTagStrings_ofTokens a (some t) hfa (hf.trans hfs),
        compareTagStrings_ofTokens a (some s) hfa hfs]
      simp only [Option.getD_some, hsort]

theorem tooltipStep_id_mono (s : TooltipState) (e : TooltipEvent) :
    s.currentTooltipId ≤ (tooltipStep s e).currentTooltipId := by
  cases e with
  | enter target fetches =>
    simp only [tooltipStep]
    by_cases h : s.tooltipEnabled
    · simp only [h]
      cases fetches <;> simp
    · simp [h]
  | leave => simp [tooltipStep]
  | complete token target =>
    simp only [tooltipStep]
    by_cases h : token = s.currentTooltipId <;> simp [h]

theorem tooltipRun_id_mono (s : TooltipState) (es : List TooltipEvent) :
    s.currentTooltipId ≤ (tooltipRun s es).currentTooltipId := by
  induction es generalizing s with
  | nil => exact le_refl _
  | cons e es ih => exact le_trans (tooltipStep_id_mono s e) (ih _)

theorem tooltipStep_enabled (s : TooltipState) (e : TooltipEvent) :
    (tooltipStep s e).tooltipEnabled = s.tooltipEnabled := by
  cases e with
  | enter target fetches =>
    simp only [tooltipStep]
    by_cases h : s.tooltipEnabled
    · simp only [h]
      cases fetches <;> simp
    · simp [h]
  | leave => rfl
  | complete token target =>
    simp only [tooltipStep]
    by_cases h : token = s.currentTooltipId <;> simp [h]

/-! ## Claim theorems -/

/-- C1 (counterexample): in single-select mode, the image click path does not
write the `{promptText, imageUrl}` payload for one selected post, nor the
empty object for no selected post: clicking the unselected sole post emits
the `{selections:[...]}` shape with one element, and clicking it again (so
that nothing is selected) emits `{selections:[]}`, not `{}`. -/
theorem updateSelectionData_single_mode_counterexample :
    selectedIdsOf (imgOnClick false [(1, false)] 1) = [1] ∧
    updateSelectionData {} [samplePost] [] (selectedIdsOf (imgOnClick false [(1, false)] 1)) =
      .multiSel [{ post_id := 1, prompt := "solo, smile",
                   image_url := some "https://example.test/1.jpg" }] ∧
    selectedIdsOf (imgOnClick false [(1, true)] 1) = [] ∧
    updateSelectionData {} [samplePost] [] (selectedIdsOf (imgOnClick false [(1, true)] 1)) =
      .multiSel [] ∧
    SelectionPayload.multiSel ([] : List SelectionEntry) ≠ SelectionPayload.emptyObj := by
  decide

/-- C1 (amended): every selection update via the image click path writes the
`{selections:[...]}` payload shape regardless of selection mode — a
one-element array when exactly one post is selected and an empty
`selections` array when none; the `{promptText, imageUrl}` and `{}` shapes
are never produced by this path. -/
theorem updateSelectionData_always_selections_shape
    (cfg : PromptSettings) (posts : List Post) (edits : List (Nat × Post))
    (selectedIds : List Nat) :
    payloadIsMulti (updateSelectionData cfg posts edits selectedIds) = true := rfl

/-- C3: a `fetchAndRender` call made while `isLoading` is set returns at once
with no issued request and leaves the post list, the page cursor and the
filter state unchanged. -/
theorem fetchAndRender_guard (st : GalleryState) (reset : Bool)
    (searchValue rating : String) (blacklist : List String)
    (connected : Bool) (response : Option (List Post))
    (h : st.isLoading = true) :
    fetchAndRender st reset searchValue rating blacklist connected response =
      { state := st, requests := [], tagHint := false, result := .guarded } := by
  simp [fetchAndRender, h]

/-- Witness for C3 at a concrete in-flight state. -/
theorem fetchAndRender_guard_witness :
    fetchAndRender loadingState true "a, b, c" "general" ["x"] true (some []) =
      { state := loadingState, requests := [], tagHint := false, result := .guarded } :=
  fetchAndRender_guard loadingState true "a, b, c" "general" ["x"] true (some []) rfl

/-- C6: when the original snapshot of a post is cached, the reset-to-original
handler leaves the derived edited status false: the visible cache entry is
replaced by a copy of the snapshot and the working copy is removed. -/
theorem resetToOriginal_clears_edited (st : EditState) (id : Nat) (o : Post)
    (h : st.originalPostCache.lookup id = some o) :
    computeEditedStatus (resetToOriginal st id) id = false ∧
    (resetToOriginal st id).temporaryTagEdits.lookup id = none ∧
    (resetToOriginal st id).posts = replaceFirstById st.posts id o := by
  refine ⟨?_, ?_, ?_⟩
  · simp only [resetToOriginal, h, computeEditedStatus]
    rw [lookup_filter_ne_eq_none, isTrulyEdited_no_copy]
  · simp only [resetToOriginal, h]
    exact lookup_filter_ne_eq_none _ _
  · simp only [resetToOriginal, h]

/-- Witness for C6 at a concrete state with a differing working copy. -/
theorem resetToOriginal_clears_edited_witness :
    computeEditedStatus (resetToOriginal sampleEditState 1) 1 = false ∧
    (resetToOriginal sampleEditState 1).temporaryTagEdits.lookup 1 = none ∧
    (resetToOriginal sampleEditState 1).posts = replaceFirstById sampleEditState.posts 1 samplePost :=
  resetToOriginal_clears_edited sampleEditState 1 samplePost rfl

/-- C8: creating a working copy is idempotent — a second
`getOrCreateWorkingCopy` call for the same identifier with no intervening
mutation returns the overlay unchanged, and the working copy (a clone of the
unmutated post) is still diff-equal to the original snapshot, so the edited
status stays false. -/
theorem getOrCreateWorkingCopy_idempotent (edits : List (Nat × Post)) (p : Post)
    (h : edits.lookup p.id = none) :
    getOrCreateWorkingCopy (getOrCreateWorkingCopy edits p) p = getOrCreateWorkingCopy edits p ∧
    (getOrCreateWorkingCopy edits p).lookup p.id = some p ∧
    isTrulyEdited (some p) ((getOrCreateWorkingCopy (getOrCreateWorkingCopy edits p) p).lookup p.id)
      = false := by
  have h1 : getOrCreateWorkingCopy edits p = (p.id, p) :: edits := by
    simp [getOrCreateWorkingCopy, h]
  have h2 : ((p.id, p) :: edits).lookup p.id = some p := by
    simp [List.lookup]
  have h3 : getOrCreateWorkingCopy ((p.id, p) :: edits) p = (p.id, p) :: edits := by
    simp [getOrCreateWorkingCopy, h2]
  refine ⟨by rw [h1, h3], by rw [h1]; exact h2, ?_⟩
  rw [h1, h3, h2, isTrulyEdited_self]

/-- Witness for C8 at a concrete post and empty overlay. -/
theorem getOrCreateWorkingCopy_idempotent_witness :
    getOrCreateWorkingCopy (getOrCreateWorkingCopy [] samplePost) samplePost =
      getOrCreateWorkingCopy [] samplePost ∧
    (getOrCreateWorkingCopy [] samplePost).lookup samplePost.id = some samplePost ∧
    isTrulyEdited (some samplePost)
      ((getOrCreateWorkingCopy (getOrCreateWorkingCopy [] samplePost) samplePost).lookup samplePost.id)
      = false :=
  getOrCreateWorkingCopy_idempotent [] samplePost rfl

/-- C2: in the enrichment pipeline, after hovering target A and then target B
before the fetch for A resolves, the completion of the fetch for A (carrying
the token captured at its hover start) leaves the state unchanged no matter
which events happened in between; moreover any completion whose captured
token differs from the global token is discarded without any mutation, and
a `mouseleave` always increments the global token. -/
theorem tooltip_race_safety (s0 : TooltipState) (A B : Nat) (fB : Bool)
    (mid : List TooltipEvent) (henabled : s0.tooltipEnabled = true) :
    (tooltipStep (tooltipRun (tooltipStep (tooltipStep s0 (.enter A true)) (.enter B fB)) mid)
        (.complete (tooltipStep s0 (.enter A true)).currentTooltipId A) =
      tooltipRun (tooltipStep (tooltipStep s0 (.enter A true)) (.enter B fB)) mid) ∧
    (∀ (s : TooltipState) (token target : Nat), token ≠ s.currentTooltipId →
        tooltipStep s (.complete token target) = s) ∧
    (∀ s : TooltipState, (tooltipStep s .leave).currentTooltipId = s.currentTooltipId + 1) := by
  have stale : ∀ (s : TooltipState) (token target : Nat), token ≠ s.currentTooltipId →
      tooltipStep s (.complete token target) = s := by
    intro s token target hne
    simp [tooltipStep, hne]
  refine ⟨?_, stale, fun s => rfl⟩
  set s1 := tooltipStep s0 (.enter A true) with hs1
  have hid1 : s1.currentTooltipId = s0.currentTooltipId + 1 := by
    simp [hs1, tooltipStep, henabled]
  have hen1 : s1.tooltipEnabled = true := by
    rw [hs1, tooltipStep_enabled]; exact henabled
  set s2 := tooltipStep s1 (.enter B fB) with hs2
  have hid2 : s2.currentTooltipId = s1.currentTooltipId + 1 := by
    rw [hs2]
    cases fB <;> simp [tooltipStep, hen1]
  have hmono := tooltipRun_id_mono s2 mid
  apply stale
  intro heq
  rw [heq] at hid1
  omega

/-- C5 (counterexample): `compareTagStrings` does not treat null, the empty
string and a whitespace-only string as mutually equal — a whitespace-only
string is truthy in JavaScript, so the falsy short-circuit reports it unequal
to null and to the empty string. -/
theorem compareTagStrings_blank_counterexample :
    compareTagStrings none (some " ") = false ∧
    compareTagStrings (some "") (some " ") = false ∧
    compareTagStrings (some " ") (some " ") = true := by
  decide

/-- C5 (amended): `compareTagStrings` splits blank values into two classes —
null and the empty string are equal to each other, whitespace-only strings
are equal to each other, the two classes compare unequal — and any blank
value is unequal to a string containing at least one non-whitespace token. -/
theorem compareTagStrings_blank_classes :
    (∀ v1 v2 : Option String, blankTagValue v1 = true → blankTagValue v2 = true →
        compareTagStrings v1 v2 = (falsy v1 == falsy v2)) ∧
    (∀ v1 v2 : Option String, blankTagValue v1 = true → blankTagValue v2 = false →
        compareTagStrings v1 v2 = false) ∧
    (∀ v1 v2 : Option String, blankTagValue v1 = false → blankTagValue v2 = true →
        compareTagStrings v1 v2 = false) := by
  have nonblank_ne : ∀ {v : Option String}, blankTagValue v = false →
      sortTags (splitTags (v.getD "")) ≠ [] := by
    intro v h hc
    exact splitTags_of_not_blank h ((sortTags_eq_nil_iff _).mp hc)
  refine ⟨?_, ?_, ?_⟩
  · intro v1 v2 h1 h2
    cases hf1 : falsy v1 <;> cases hf2 : falsy v2
    · rw [compareTagStrings_ofTokens v1 v2 hf1 hf2, splitTags_of_blank h1,
        splitTags_of_blank h2]
      rfl
    · simp [compareTagStrings, hf1, hf2]
    · simp [compareTagStrings, hf1, hf2]
    · simp [compareTagStrings, hf1, hf2]
  · intro v1 v2 h1 h2
    have hf2 : falsy v2 = false := falsy_of_not_blank h2
    cases hf1 : falsy v1
    · rw [compareTagStrings_ofTokens v1 v2 hf1 hf2, splitTags_of_blank h1]
      rw [beq_eq_false_iff_ne]
      intro hc
      exact nonblank_ne h2 hc.symm
    · simp [compareTagStrings, hf1, hf2]
  · intro v1 v2 h1 h2
    have hf1 : falsy v1 = false := falsy_of_not_blank h1
    cases hf2 : falsy v2
    · rw [compareTagStrings_ofTokens v1 v2 hf1 hf2, splitTags_of_blank h2]
      rw [beq_eq_false_iff_ne]
      intro hc
      exact nonblank_ne h1 hc
    · simp [compareTagStrings, hf1, hf2]

/-- Witness for the amended C5 at concrete blank and non-blank values. -/
theorem compareTagStrings_blank_classes_witness :
    compareTagStrings none (some "") = (falsy (none : Option String) == falsy (some "")) ∧
    compareTagStrings (some " ") (some "a b") = false ∧
    compareTagStrings (some "a b") (some "\t") = false :=
  ⟨compareTagStrings_blank_classes.1 none (some "") (by decide) (by decide),
    compareTagStrings_blank_classes.2.1 (some " ") (some "a b") (by decide) (by decide),
    compareTagStrings_blank_classes.2.2 (some "a b") (some "\t") (by decide) (by decide)⟩

/-- C7: the derived edited status is invariant under any permutation of the
token order inside a tag category string of the working copy — replacing the
category value by any string with the same tokens in permuted order (in
particular any actual reordering inside the string, which also preserves
emptiness) leaves `isTrulyEdited` unchanged. -/
theorem editedStatus_token_order_independent
    (orig : Option Post) (e : Post) (c : TagCategory) (s t : String)
    (hc : e.cat c = some s)
    (hperm : (splitTags t).Perm (splitTags s))
    (hempty : t.data.isEmpty = s.data.isEmpty) :
    isTrulyEdited orig (some (e.setCat c (some t))) = isTrulyEdited orig (some e) := by
  cases orig with
  | none => rfl
  | some o =>
    have hcmp := compareTagStrings_perm_right (o.cat c) s t hperm hempty
    cases c <;>
      simp_all [isTrulyEdited, categories, Post.cat, Post.setCat]

/-- Witness for C7: permuting the general tags of a concrete working copy
does not change the edited status. -/
theorem editedStatus_token_order_independent_witness :
    isTrulyEdited (some samplePost) (some (samplePostEdited.setCat .general (some "frown solo"))) =
      isTrulyEdited (some samplePost) (some samplePostEdited) :=
  editedStatus_token_order_independent (some samplePost) samplePostEdited .general
    "solo frown" "frown solo" (by decide) (by decide) (by decide)

/-- Witness for C2 at a concrete hover interleaving. -/
theorem tooltip_race_safety_witness :
    tooltipStep (tooltipRun (tooltipStep (tooltipStep {} (.enter 10 true)) (.enter 20 true)) [.leave])
        (.complete (tooltipStep {} (.enter 10 true)).currentTooltipId 10) =
      tooltipRun (tooltipStep (tooltipStep {} (.enter 10 true)) (.enter 20 true)) [.leave] :=
  (tooltip_race_safety {} 10 20 true [.leave] rfl).1

/-- C4 (counterexample): the search `"a, b, c, d"` does not issue a remote
query whose tag parameter contains only the first two tags — the issued
request carries all four tags, converted to API format; only the
non-blocking hint is produced client-side. -/
theorem fetchAndRender_tagLimit_counterexample :
    (fetchAndRender {} false "a, b, c, d" "general" [] true (some [])).requests =
      [{ tags := "a b c d", rating := "general", page := 1 }] ∧
    splitTags "a b c d" = ["a", "b", "c", "d"] ∧
    "a b c d" ≠ "a b" ∧
    (fetchAndRender {} false "a, b, c, d" "general" [] true (some [])).tagHint = true := by
  decide

/-- C4 (amended): for every search input with more than two comma-separated
tags, `fetchAndRender` shows the non-blocking hint and issues exactly one
remote query whose tag parameter is the API-format conversion of the full
input — all tags, including the excess ones, are sent (any dropping happens
remotely); the request is never rejected client-side. -/
theorem fetchAndRender_tag_over_limit (st : GalleryState) (reset : Bool)
    (searchValue rating : String) (blacklist : List String)
    (response : Option (List Post))
    (hload : st.isLoading = false)
    (hcount : ((splitOnChar ',' (jsTrim searchValue)).filter
        (fun tag => jsTrim tag != "")).length > 2) :
    (fetchAndRender st reset searchValue rating blacklist true response).tagHint = true ∧
    (fetchAndRender st reset searchValue rating blacklist true response).requests.map
        (fun r => r.tags) = [requestTagsFor st.filterState searchValue] ∧
    (fetchAndRender st reset searchValue rating blacklist true response).result ≠ .guarded ∧
    (fetchAndRender st reset searchValue rating blacklist true response).result ≠ .networkFailed := by
  cases response with
  | none =>
    cases reset <;> simp [fetchAndRender, hload, hcount]
  | some newPosts =>
    cases reset with
    | false => simp [fetchAndRender, hload, hcount]
    | true =>
      by_cases hemp :
          (newPosts.filter (fun post => !isPostFiltered blacklist post)).isEmpty = true
      · simp [fetchAndRender, hload, hcount, hemp]
      · simp [fetchAndRender, hload, hcount, hemp]

/-- Witness for the amended C4 at the concrete four-tag search. -/
theorem fetchAndRender_tag_over_limit_witness :
    (fetchAndRender {} false "a, b, c, d" "general" [] true (some [])).tagHint = true ∧
    (fetchAndRender {} false "a, b, c, d" "general" [] true (some [])).requests.map
        (fun r => r.tags) = [requestTagsFor ({} : GalleryState).filterState "a, b, c, d"] ∧
    (fetchAndRender {} false "a, b, c, d" "general" [] true (some [])).result ≠ .guarded ∧
    (fetchAndRender {} false "a, b, c, d" "general" [] true (some [])).result ≠ .networkFailed :=
  fetchAndRender_tag_over_limit {} false "a, b, c, d" "general" [] (some []) rfl (by decide)

/-- C9: the apply button of the filter dialog rejects a time range whose end
precedes its start as well as a non-positive start page with a local
validation message, without submitting and without mutating the stored
filter state. -/
theorem applyFilter_invalid_rejected (fs : FilterState) (selectedType : FilterDialogType)
    (startTimeInput endTimeInput startPageInput : String)
    (hinvalid :
      (selectedType = .time ∧ startTimeInput ≠ "" ∧ endTimeInput ≠ "" ∧
        dateStrGt startTimeInput endTimeInput = true) ∨
      (selectedType = .page ∧ startPageInput ≠ "" ∧
        ∃ n : Int, parseIntJs startPageInput = some n ∧ n ≤ 0)) :
    (applyFilterDialog fs selectedType startTimeInput endTimeInput startPageInput).filterState
      = fs ∧
    (applyFilterDialog fs selectedType startTimeInput endTimeInput startPageInput).errorMessage
      = some (if selectedType = .time then "结束时间不能早于开始时间。" else "起始页码必须是大于0的整数。") ∧
    (applyFilterDialog fs selectedType startTimeInput endTimeInput startPageInput).submitted
      = false := by
  rcases hinvalid with ⟨hty, hs, he, hgt⟩ | ⟨hty, hp, n, hn, hneg⟩
  · subst hty
    have hcond : (startTimeInput != "" && endTimeInput != "" &&
        dateStrGt startTimeInput endTimeInput) = true := by
      simp [bne_iff_ne, hs, he, hgt]
    simp [applyFilterDialog, hcond]
  · subst hty
    have hcond : (startPageInput != "" &&
        ((parseIntJs startPageInput).isNone || (parseIntJs startPageInput).getD 0 < 1)) = true := by
      rw [hn]
      simp only [Option.getD_some, Option.isNone_some, Bool.false_or, Bool.and_eq_true,
        bne_iff_ne, ne_eq, decide_eq_true_eq]
      exact ⟨hp, by omega⟩
    simp [applyFilterDialog, hcond]

/-- Witness for C9 at a concrete inverted time range. -/
theorem applyFilter_invalid_rejected_witness :
    (applyFilterDialog {} .time "2024-02-02T00:00" "2024-01-01T00:00" "").filterState = {} ∧
    (applyFilterDialog {} .time "2024-02-02T00:00" "2024-01-01T00:00" "").errorMessage
      = some (if FilterDialogType.time = .time then "结束时间不能早于开始时间。" else "起始页码必须是大于0的整数。") ∧
    (applyFilterDialog {} .time "2024-02-02T00:00" "2024-01-01T00:00" "").submitted = false :=
  applyFilter_invalid_rejected {} .time "2024-02-02T00:00" "2024-01-01T00:00" ""
    (Or.inl ⟨rfl, by decide, by decide, by decide⟩)

/-- C10: the client-side file-type filter is default-deny — a post with no
`file_ext` field whose `file_url` yields no extractable extension (or is
absent) is classified as filtered and is never appended to the post cache by
a page load. -/
theorem isPostFiltered_default_deny (blacklist : List String) (p : Post)
    (hext : p.file_ext = none)
    (hurl : ∀ url, p.file_url = some url → extractExt (lowerStr url) = none) :
    isPostFiltered blacklist p = true ∧
    (∀ l : List Post, p ∉ l.filter (fun q => !isPostFiltered blacklist q)) ∧
    (∀ (st : GalleryState) (reset : Bool) (searchValue rating : String)
        (newPosts : List Post), p ∉ st.posts →
        p ∉ (fetchAndRender st reset searchValue rating blacklist true (some newPosts)).state.posts) := by
  have hvalid : isValidImageType p = false := by
    cases hfu : p.file_url with
    | none => simp [isValidImageType, hext, truthy, falsy, hfu]
    | some url =>
      have hx := hurl url hfu
      simp [isValidImageType, hext, truthy, falsy, hfu, hx]
  have hfilt : isPostFiltered blacklist p = true := by
    simp [isPostFiltered, hvalid]
  have hmem : ∀ l : List Post, p ∉ l.filter (fun q => !isPostFiltered blacklist q) := by
    intro l hmem
    have hpred := (List.mem_filter.mp hmem).2
    rw [hfilt] at hpred
    exact absurd hpred (by simp)
  refine ⟨hfilt, hmem, ?_⟩
  intro st reset searchValue rating newPosts hnot
  by_cases hl : st.isLoading = true
  · simpa [fetchAndRender, hl] using hnot
  · have hl' : st.isLoading = false := by
      cases hv : st.isLoading
      · rfl
      · exact absurd hv hl
    cases reset with
    | false =>
      intro hc
      simp [fetchAndRender, hl', hfilt] at hc
      exact hnot hc
    | true =>
      by_cases hemp :
          (newPosts.filter (fun post => !isPostFiltered blacklist post)).isEmpty = true
      · intro hc
        simp [fetchAndRender, hl', hemp, hfilt] at hc
      · intro hc
        simp [fetchAndRender, hl', hemp, hfilt] at hc

/-- Witness for C10 at a concrete extension-less post. -/
theorem isPostFiltered_default_deny_witness :
    isPostFiltered [] sampleNoTypePost = true :=
  (isPostFiltered_default_deny [] sampleNoTypePost rfl (fun url h => by
    have h2 : "http://host/file" = url := Option.some.inj h
    rw [← h2]
    decide)).1

end DanbooruGallery
